import Mathlib

/-!
Shallow embedding of the templUI client-side runtime (selectbox.js,
stepper.js, the date-picker script) and proofs about the behaviour its
specification claims.

The JavaScript `Date` UTC arithmetic is modelled with the standard civil
calendar conversion (days-from-civil / civil-from-days); instants are
integer seconds since the Unix epoch, which is exact for every value the
scripts construct (they never produce fractional seconds).
-/

namespace TemplUI

/-! ## Civil calendar arithmetic (model of JS `Date` UTC accessors) -/

/-- Days since 1970-01-01 of the civil date `(y, m, d)` with `m` 1-indexed.
The scripts only call this with `d = 1` (day overflow is added afterwards,
as in the ECMAScript `MakeDay` operation). -/
def daysFromCivil (y m d : Int) : Int :=
  let y2 : Int := if m ≤ 2 then y - 1 else y
  let era : Int := y2.fdiv 400
  let yoe : Int := y2 - era * 400
  let mp : Int := (m + 9) % 12
  let doy : Int := (153 * mp + 2) / 5 + (d - 1)
  let doe : Int := yoe * 365 + yoe / 4 - yoe / 100 + doy
  era * 146097 + doe - 719468

/-- Civil date `(year, month, day)` (month 1-indexed) of a day count since
1970-01-01; inverse of `daysFromCivil`. -/
def civilFromDays (z : Int) : Int × Int × Int :=
  let z2 : Int := z + 719468
  let era : Int := z2.fdiv 146097
  let doe : Int := z2 - era * 146097
  let yoe : Int := (doe - doe / 1460 + doe / 36524 - doe / 146096) / 365
  let y : Int := yoe + era * 400
  let doy : Int := doe - (365 * yoe + yoe / 4 - yoe / 100)
  let mp : Int := (5 * doy + 2) / 153
  let d : Int := doy - (153 * mp + 2) / 5 + 1
  let m : Int := if mp < 10 then mp + 3 else mp - 9
  (if m ≤ 2 then y + 1 else y, m, d)

/-- Model of `Date.UTC(year, month, day, hour, minute, second)` in seconds
since the epoch. `month` is 0-indexed and may overflow (ECMAScript
normalises it with floor division); `day`, `hour`, `minute`, `second` may
overflow and simply roll the instant forward. Years 0–99 are mapped to
1900–1999 per the ECMAScript two-digit-year rule. -/
def dateUTC (year month day hour minute second : Int) : Int :=
  let yr : Int := if 0 ≤ year ∧ year ≤ 99 then year + 1900 else year
  let ym : Int := yr + month.fdiv 12
  let mn : Int := month.fmod 12
  (daysFromCivil ym (mn + 1) 1 + (day - 1)) * 86400
    + hour * 3600 + minute * 60 + second

/-- Model of `getUTCFullYear` / `getUTCMonth + 1` / `getUTCDate` on an
instant (seconds since the epoch): the civil date of its UTC day. -/
def getUTCYmd (t : Int) : Int × Int × Int :=
  civilFromDays (t.fdiv 86400)

/-- Seconds past UTC midnight of an instant. -/
def utcTimeOfDay (t : Int) : Int :=
  t.fmod 86400

/-! ## Lexical matching (model of the two ISO regexes) -/

/-- `'0'`–`'9'` check, the `\d` class of the regexes. -/
def isDigitCh (c : Char) : Bool :=
  '0' ≤ c ∧ c ≤ '9'

/-- Take exactly `n` digits from the front, returning their numeric value
(the `parseInt` of the captured group) and the rest. -/
def takeDigits : Nat → List Char → Int → Option (Int × List Char)
  | 0, cs, acc => some (acc, cs)
  | _ + 1, [], _ => none
  | n + 1, c :: cs, acc =>
    if isDigitCh c then
      takeDigits n cs (acc * 10 + ((c.toNat : Int) - ('0'.toNat : Int)))
    else
      none

/-- Model of `^(\d{4})-(\d{2})-(\d{2})$`: the whole input must be a dashed
date; returns `(year, month, day)` as parsed integers (month 1-indexed as
written). -/
def matchISODate (cs : List Char) : Option (Int × Int × Int) :=
  match takeDigits 4 cs 0 with
  | none => none
  | some (y, r1) =>
    match r1 with
    | '-' :: r2 =>
      match takeDigits 2 r2 0 with
      | none => none
      | some (mo, r3) =>
        match r3 with
        | '-' :: r4 =>
          match takeDigits 2 r4 0 with
          | none => none
          | some (d, r5) => if r5 = [] then some (y, mo, d) else none
        | _ => none
    | _ => none

/-- The optional seconds group `(?::(\d{2}))?` of the date-time regex:
consumed when a `':'` followed by two digits is present, otherwise empty. -/
def matchOptSeconds (cs : List Char) : Int :=
  match cs with
  | ':' :: r =>
    match takeDigits 2 r 0 with
    | some (s, _) => s
    | none => 0
  | _ => 0

/-- The optional time group `(?:[T ](\d{2}):(\d{2})(?::(\d{2}))?)?` of the
date-time regex: if a `[T ]` separator followed by `hh:mm` is present it is
consumed (with optional seconds), otherwise the group matches empty and the
components default to 0 (as `parts[4] ? … : 0` does in the script). -/
def matchOptTime (cs : List Char) : Int × Int × Int :=
  match cs with
  | sep :: r1 =>
    if sep = 'T' ∨ sep = ' ' then
      match takeDigits 2 r1 0 with
      | none => (0, 0, 0)
      | some (h, r2) =>
        match r2 with
        | ':' :: r3 =>
          match takeDigits 2 r3 0 with
          | none => (0, 0, 0)
          | some (mi, r4) => (h, mi, matchOptSeconds r4)
        | _ => (0, 0, 0)
    else (0, 0, 0)
  | [] => (0, 0, 0)

/-- Model of `^(\d{4})-(\d{2})-(\d{2})(?:[T ](\d{2}):(\d{2})(?::(\d{2}))?)?`:
no end anchor, so anything after the matched prefix is ignored. Returns
`(year, month, day, hour, minute, second)`. -/
def matchISODateTime (cs : List Char) :
    Option (Int × Int × Int × Int × Int × Int) :=
  match takeDigits 4 cs 0 with
  | none => none
  | some (y, r1) =>
    match r1 with
    | '-' :: r2 =>
      match takeDigits 2 r2 0 with
      | none => none
      | some (mo, r3) =>
        match r3 with
        | '-' :: r4 =>
          match takeDigits 2 r4 0 with
          | none => none
          | some (d, r5) =>
            let hms := matchOptTime r5
            some (y, mo, d, hms.1, hms.2.1, hms.2.2)
        | _ => none
    | _ => none

/-! ## The date parsers (model of `parseISODate` / `parseISODateTime`) -/

/-- Model of `parseISODate`: match the anchored date regex, reconstruct a
UTC instant from the components, and return it only when the instant reads
back (via the `getUTC*` accessors) as exactly the parsed components. -/
def parseISODate (s : String) : Option Int :=
  if s = "" then none
  else
    match matchISODate s.toList with
    | none => none
    | some (y, mo, d) =>
      let month : Int := mo - 1
      let t := dateUTC y month d 0 0 0
      let g := getUTCYmd t
      if g.1 = y ∧ g.2.1 - 1 = month ∧ g.2.2 = d then some t else none

/-- Core of `parseISODateTime` on a character list: match the unanchored
date-time regex, reconstruct the UTC instant, and validate only the three
calendar-date components on read-back (the time components are not
validated). -/
def parseISODateTimeCore (cs : List Char) : Option Int :=
  match matchISODateTime cs with
  | none => none
  | some (y, mo, d, h, mi, sec) =>
    let month : Int := mo - 1
    let t := dateUTC y month d h mi sec
    let g := getUTCYmd t
    if g.1 = y ∧ g.2.1 - 1 = month ∧ g.2.2 = d then some t else none

/-- Model of `parseISODateTime` on strings. -/
def parseISODateTime (s : String) : Option Int :=
  if s = "" then none else parseISODateTimeCore s.toList

/-! ## Locale formatting (model of `formatDateWithIntl` / `formatDateTimeWithIntl`)

The host's `Intl.DateTimeFormat` facility is an external collaborator; it
is modelled as a function from the options record, the locale tag and the
instant to `Option String` (`none` models a thrown exception). -/

/-- The options record handed to `Intl.DateTimeFormat`: a date style, the
pinned time zone, and the optional time fields the date-time path adds. -/
structure IntlOptions where
  dateStyle : String
  timeZone : String
  hour : Bool
  minute : Bool
  second : Bool
  hour12 : Option Bool
  deriving DecidableEq, Repr

/-- The locale-formatting collaborator: options, locale tag, instant. -/
def IntlFacility : Type :=
  IntlOptions → String → Int → Option String

/-- The `switch (format)` mapping a display-format name to a
`dateStyle`; anything unrecognised defaults to `"medium"`. -/
def styleOfFormat (format : String) : String :=
  if format = "locale-short" then "short"
  else if format = "locale-long" then "long"
  else if format = "locale-full" then "full"
  else "medium"

/-- The options built by `formatDateWithIntl` (date fields only). -/
def dateOnlyOptions (format : String) : IntlOptions :=
  { dateStyle := styleOfFormat format, timeZone := "UTC",
    hour := false, minute := false, second := false, hour12 := none }

/-- The fixed retry options `{ dateStyle: "medium", timeZone: "UTC" }`. -/
def mediumFallbackOptions : IntlOptions :=
  { dateStyle := "medium", timeZone := "UTC",
    hour := false, minute := false, second := false, hour12 := none }

/-- The options built by `formatDateTimeWithIntl`: the date style plus,
when `withTime` is set, 2-digit hour and minute, optionally seconds, and
the 12/24-hour flag. -/
def dateTimeOptions (format : String) (withTime withSeconds with24Hours : Bool) :
    IntlOptions :=
  { dateStyle := styleOfFormat format, timeZone := "UTC",
    hour := withTime, minute := withTime,
    second := withTime && withSeconds,
    hour12 := if withTime then some (!with24Hours) else none }

/-- `String.padStart(n, "0")`. -/
def padZero (n : Nat) (s : String) : String :=
  if n ≤ s.length then s
  else String.mk (List.replicate (n - s.length) '0') ++ s

/-- The manually composed `${year}-${month}-${day}` absolute fallback of
`formatDateWithIntl` (month and day zero-padded to two digits, year left
as written). -/
def manualYMD (t : Int) : String :=
  let g := getUTCYmd t
  toString g.1 ++ "-" ++ padZero 2 (toString g.2.1) ++ "-" ++ padZero 2 (toString g.2.2)

/-- Model of `Date.prototype.toISOString` on an integral-second instant. -/
def toISOString (t : Int) : String :=
  let g := getUTCYmd t
  let tod := utcTimeOfDay t
  padZero 4 (toString g.1) ++ "-" ++ padZero 2 (toString g.2.1) ++ "-"
    ++ padZero 2 (toString g.2.2) ++ "T" ++ padZero 2 (toString (tod / 3600))
    ++ ":" ++ padZero 2 (toString ((tod / 60) % 60)) ++ ":"
    ++ padZero 2 (toString (tod % 60)) ++ ".000Z"

/-- Model of `formatDateWithIntl`: an invalid/absent date renders as `""`;
a facility failure is retried with the fixed medium/UTC options and, if
that also fails, absorbed by the manual `YYYY-MM-DD` composition. -/
def formatDateWithIntl (fmt : IntlFacility) (date : Option Int)
    (format localeTag : String) : String :=
  match date with
  | none => ""
  | some t =>
    match fmt (dateOnlyOptions format) localeTag t with
    | some s => s
    | none =>
      match fmt mediumFallbackOptions localeTag t with
      | some s => s
      | none => manualYMD t

/-- Model of `formatDateTimeWithIntl`: an invalid/absent date renders as
`""`; a facility failure falls back directly to `date.toISOString()`. -/
def formatDateTimeWithIntl (fmt : IntlFacility) (date : Option Int)
    (format localeTag : String) (withTime withSeconds with24Hours : Bool) : String :=
  match date with
  | none => ""
  | some t =>
    match fmt (dateTimeOptions format withTime withSeconds with24Hours) localeTag t with
    | some s => s
    | none => toISOString t

/-- Modelled from the spec, for comparison with `formatDateTimeWithIntl`:
the date-time path as §4.4 describes it, with the same two-level fallback
chain as the date-only path (retry with the fixed medium/UTC options, then
the manually composed `YYYY-MM-DD` string). -/
def specTwoLevelDateTimeFallback (fmt : IntlFacility) (date : Option Int)
    (format localeTag : String) (withTime withSeconds with24Hours : Bool) : String :=
  match date with
  | none => ""
  | some t =>
    match fmt (dateTimeOptions format withTime withSeconds with24Hours) localeTag t with
    | some s => s
    | none =>
      match fmt mediumFallbackOptions localeTag t with
      | some s => s
      | none => manualYMD t

/-- A facility that succeeds exactly on the fixed medium/UTC retry options
(and fails, as by a thrown exception, on every other options record). -/
def fmtMediumOnly : IntlFacility :=
  fun opts _ _ => if opts = mediumFallbackOptions then some "Jun 15, 2023" else none

/-- A facility that always fails. -/
def fmtAlwaysFails : IntlFacility :=
  fun _ _ _ => none

end TemplUI

namespace TemplUI.SB

/-! ## Selection control state machine (model of the `SelectBox` class)

The DOM `.select-item` elements are modelled as a list of records carrying
their `data-value`, their `.select-item-text` content, and the
`data-selected` / `data-disabled` attributes. The JS `Set` of selected
values is a duplicate-free list in insertion order (`Array.from`
enumerates a `Set` in insertion order). Dispatched events are logged in
order. Purely presentational work (CSS classes, pill DOM construction and
its overflow re-measure, reset-button visibility, popover closing and
focus transfer) is not part of the state. -/

/-- One `.select-item` element. -/
structure Item where
  value : String
  text : String
  selected : Bool
  disabled : Bool
  deriving DecidableEq, Repr

/-- What `getValue()` returns: a sole value or `null` in single mode, an
array in multi mode. -/
inductive Value where
  | single : Option String → Value
  | multi : List String → Value
  deriving DecidableEq, Repr

/-- The rendered summary: plain text, or one pill per selected item. -/
inductive Display where
  | text : String → Display
  | pills : List String → Display
  deriving DecidableEq, Repr

/-- Events dispatched by the instance: `selectbox:change` (with the new
value, previous values and triggering item's value when any),
`selectbox:reset` (previous values), the `change` event fired on the
hidden input, and the `input` event fired on the search field. -/
inductive Event where
  | changeEvt : Value → List String → Option String → Event
  | resetEvt : List String → Event
  | hiddenChange : Event
  | searchInput : Event
  deriving DecidableEq, Repr

/-- The mutable state of one `SelectBox` instance. -/
structure State where
  multiple : Bool
  showPills : Bool
  selectedCountText : String
  placeholder : String
  selectedValues : List String
  isSelecting : Bool
  items : List Item
  hiddenValue : String
  valueText : Display
  searchText : String
  hasSearch : Bool
  events : List Event
  deriving DecidableEq, Repr

/-- `Set.prototype.add`: append when absent. -/
def setAdd (s : List String) (v : String) : List String :=
  if v ∈ s then s else s ++ [v]

/-- `Set.prototype.delete`. -/
def setDelete (s : List String) (v : String) : List String :=
  s.filter (fun x => x ≠ v)

/-- Set `data-selected` on the first item with the given value (the
element `querySelector` resolves). -/
def markFirstItem : List Item → String → Bool → List Item
  | [], _, _ => []
  | it :: rest, v, sel =>
    if it.value = v then { it with selected := sel } :: rest
    else it :: markFirstItem rest v sel

/-- Set `data-selected="false"` on every item (the `querySelectorAll`
loops of the single-select branch, `setValue` and `reset`). -/
def clearItems (items : List Item) : List Item :=
  items.map (fun it => { it with selected := false })

/-- Whether `querySelector('.select-item[data-value="v"]')` finds an item. -/
def hasItem (items : List Item) (v : String) : Bool :=
  items.any (fun it => it.value = v)

/-- JS `String.prototype.replace` with a string pattern: first occurrence
only. -/
def replaceFirst (s pat rep : String) : String :=
  match s.splitOn pat with
  | [] => s
  | [x] => x
  | x :: y :: rest => x ++ rep ++ String.intercalate pat (y :: rest)

/-- Model of `updateDisplay`: placeholder when nothing is selected; in
multi mode pills (when enabled) or the count template; in single mode the
first selected item's label. -/
def updateDisplay (st : State) : State :=
  let sel := st.items.filter (fun it => it.selected)
  if sel.length = 0 then
    { st with valueText := Display.text st.placeholder }
  else if st.multiple then
    if st.showPills then
      { st with valueText := Display.pills (sel.map (fun it => it.text)) }
    else
      { st with valueText :=
          Display.text (replaceFirst st.selectedCountText "{n}" (toString sel.length)) }
  else
    match sel.head? with
    | some it => { st with valueText := Display.text it.text }
    | none => st

/-- Model of `updateHiddenInput`: rewrite the field with the values joined
by `","` and dispatch a `change` event on it only when the serialized
value differs from the prior one. -/
def updateHiddenInput (st : State) : State :=
  let newValue := String.intercalate "," st.selectedValues
  let oldValue := st.hiddenValue
  let st1 := { st with hiddenValue := newValue }
  if oldValue ≠ newValue then { st1 with events := st1.events ++ [Event.hiddenChange] }
  else st1

/-- Model of `getValue()`. -/
def getValue (st : State) : Value :=
  if st.multiple then Value.multi st.selectedValues
  else Value.single st.selectedValues.head?

/-- The code sequence both `selectItem` and `setValue` end with after
mutating the set: `updateDisplay()`, `updateHiddenInput()`,
`updateResetButtonVisibility()` (purely presentational, not in the state),
then the `selectbox:change` dispatch carrying the value read back by
`getValue()`, the previous values, and (for `selectItem`) the item. -/
def afterMutation (st1 : State) (previous : List String) (item : Option String) : State :=
  let st2 := updateHiddenInput (updateDisplay st1)
  { st2 with events := st2.events ++ [Event.changeEvt (getValue st2) previous item] }

/-- Model of `selectItem(item)` for the item with `data-value` `v`:
guarded by `isSelecting`; toggles in multi mode, replaces in single mode;
then refreshes display and hidden field and dispatches `selectbox:change`.
The `isSelecting` guard it sets is cleared later by `settle`. -/
def selectItem (st : State) (v : String) : State :=
  if st.isSelecting then st
  else
    let st0 := { st with isSelecting := true }
    let previous := st0.selectedValues
    let st1 :=
      if st0.multiple then
        if v ∈ st0.selectedValues then
          { st0 with selectedValues := setDelete st0.selectedValues v,
                     items := markFirstItem st0.items v false }
        else
          { st0 with selectedValues := setAdd st0.selectedValues v,
                     items := markFirstItem st0.items v true }
      else
        { st0 with selectedValues := [v],
                   items := markFirstItem (clearItems st0.items) v true }
    afterMutation st1 previous (some v)

/-- The deferred `setTimeout` that clears the `isSelecting` guard after
the settle window. -/
def settle (st : State) : State :=
  { st with isSelecting := false }

/-- The `values.forEach` body of `setValue`: skip `null`/`undefined`
entries, and for a value whose item `querySelector` finds, add it to the
set and mark the item; values with no matching item are silently ignored. -/
def setValueStep (acc : State) (v? : Option String) : State :=
  match v? with
  | none => acc
  | some v =>
    if hasItem acc.items v then
      { acc with selectedValues := setAdd acc.selectedValues v,
                 items := markFirstItem acc.items v true }
    else acc

/-- Model of `setValue(value)`: clear the current selection and the item
mirrors, apply `setValueStep` to each supplied entry (a scalar argument is
the singleton list, per `Array.isArray(value) ? value : [value]`), refresh
display and hidden field, and dispatch `selectbox:change` with the
previous values. -/
def setValue (st : State) (value : List (Option String)) : State :=
  let previous := st.selectedValues
  let st0 := { st with selectedValues := [], items := clearItems st.items }
  let st1 := value.foldl setValueStep st0
  afterMutation st1 previous none

/-- Model of `reset()`: clear the set and the item mirrors, restore the
placeholder, clear the hidden field dispatching its `change` event
unconditionally, clear the search field (dispatching `input`) when one
exists, then dispatch `selectbox:reset` with the previous values. -/
def reset (st : State) : State :=
  let previous := st.selectedValues
  let st0 := { st with selectedValues := [], items := clearItems st.items }
  let st1 := { st0 with valueText := Display.text st0.placeholder }
  let st2 := { st1 with hiddenValue := "", events := st1.events ++ [Event.hiddenChange] }
  let st3 :=
    if st2.hasSearch then
      { st2 with searchText := "", events := st2.events ++ [Event.searchInput] }
    else st2
  { st3 with events := st3.events ++ [Event.resetEvt previous] }

/-- Count of hidden-field `change` events in a log. -/
def hiddenCount (evs : List Event) : Nat :=
  (evs.filter (fun e => e = Event.hiddenChange)).length

end TemplUI.SB

namespace TemplUI.Step

/-! ## Step sequencer state machine (model of `stepper.js`)

The step elements are modelled by their `data-step-number` attributes and
their stored `data-status` attributes (parallel lists); the step-content
panels by their `data-step-number` and their visibility. `stepper:change`
payloads (the new current step) are logged. The presentational class /
icon bookkeeping of `updateStepStates` is not part of the state. -/

/-- One sequencer's state. -/
structure SM where
  numbers : List Int
  statuses : List String
  contentNumbers : List Int
  contentVisible : List Bool
  currentStep : Int
  events : List Int
  deriving DecidableEq, Repr

/-- The derived status written into `data-status`. -/
def statusOf (stepNumber currentStep : Int) : String :=
  if stepNumber < currentStep then "completed"
  else if stepNumber = currentStep then "active"
  else "incomplete"

/-- Model of `updateStepStates()`: recompute every step's status, show
exactly the panel matching `currentStep`, and dispatch `stepper:change`. -/
def updateStepStates (sm : SM) : SM :=
  { sm with
    statuses := sm.numbers.map (fun n => statusOf n sm.currentStep),
    contentVisible := sm.contentNumbers.map (fun n => n == sm.currentStep),
    events := sm.events ++ [sm.currentStep] }

/-- Model of `goToStep(stepNumber)`: out-of-range targets return without
touching anything. -/
def goToStep (sm : SM) (stepNumber : Int) : SM :=
  if stepNumber < 1 ∨ stepNumber > (sm.numbers.length : Int) then sm
  else updateStepStates { sm with currentStep := stepNumber }

/-- Model of `nextStep()`. -/
def nextStep (sm : SM) : SM :=
  if sm.currentStep < (sm.numbers.length : Int) then goToStep sm (sm.currentStep + 1)
  else sm

/-- Model of `prevStep()`. -/
def prevStep (sm : SM) : SM :=
  if sm.currentStep > 1 then goToStep sm (sm.currentStep - 1)
  else sm

/-- The canonical markup: steps numbered `1..N`. -/
def canonicalNumbers (N : Nat) : List Int :=
  (List.range N).map (fun (i : Nat) => ((i : Int) + 1))

end TemplUI.Step

namespace TemplUI.Life

/-! ## Lifecycle controller (model of `templUI.selectbox.init/destroy` and
the stepper discovery pass)

Elements are identified by numerals; each carries the markup facts the
`SelectBox` constructor probes (trigger button, resolvable content, value
element, hidden input). The world holds the `data-initialized` markers,
the WeakMap registry (element → instance number), a counter of performed
constructions and the log of lifecycle events. -/

/-- The structural sub-elements a `.select-container` may or may not have. -/
structure ElemSpec where
  hasTrigger : Bool
  hasContent : Bool
  hasValueEl : Bool
  hasHiddenInput : Bool
  deriving DecidableEq, Repr

/-- A structurally complete element. -/
def goodSpec : ElemSpec :=
  { hasTrigger := true, hasContent := true, hasValueEl := true, hasHiddenInput := true }

/-- Lifecycle events dispatched on an element. -/
inductive LEvent where
  | initEvt : Nat → LEvent
  | destroyEvt : Nat → LEvent
  deriving DecidableEq, Repr

/-- The process-wide lifecycle state. -/
structure World where
  marked : List Nat
  registry : List (Nat × Nat)
  nextInst : Nat
  constructions : Nat
  events : List LEvent
  deriving DecidableEq, Repr

/-- The world before any initialization. -/
def emptyWorld : World :=
  { marked := [], registry := [], nextInst := 0, constructions := 0, events := [] }

/-- `instances.has(element)` / `instances.get(element) !== undefined`. -/
def registered (w : World) (e : Nat) : Bool :=
  w.registry.any (fun p => p.1 = e)

/-- `instances.get(element)`. -/
def lookupInstance (w : World) (e : Nat) : Option Nat :=
  (w.registry.find? (fun p => p.1 = e)).map (fun p => p.2)

/-- Whether every required sub-element is present. -/
def structurallyOk (sp : ElemSpec) : Bool :=
  sp.hasTrigger && (sp.hasContent && (sp.hasValueEl && sp.hasHiddenInput))

/-- Model of `new SelectBox(element)` (the constructor runs `init()`):
the `data-initialized` marker is set first, unconditionally; a missing
trigger button aborts with a logged diagnostic; missing
content/value/hidden sub-elements abort with a logged diagnostic;
otherwise setup completes and `selectbox:init` is dispatched. No
exception escapes in any case. -/
def constructSB (w : World) (e : Nat) (sp : ElemSpec) : World :=
  let w0 := { w with
    marked := if e ∈ w.marked then w.marked else w.marked ++ [e],
    constructions := w.constructions + 1 }
  if sp.hasTrigger = false then w0
  else if (sp.hasContent && (sp.hasValueEl && sp.hasHiddenInput)) = false then w0
  else { w0 with events := w0.events ++ [LEvent.initEvt e] }

/-- The `elements.forEach` body of `templUI.selectbox.init`: skip an
element already in the registry, otherwise run the constructor (which may
abort internally) and store the resulting instance regardless. -/
def sbStep (acc : World) (p : Nat × ElemSpec) : World :=
  if registered acc p.1 then acc
  else
    let acc1 := constructSB acc p.1 p.2
    { acc1 with registry := acc1.registry ++ [(p.1, acc1.nextInst)],
                nextInst := acc1.nextInst + 1 }

/-- Model of `templUI.selectbox.init(selector)`: apply `sbStep` to every
element the selector matches. -/
def sbScan (w : World) (elems : List (Nat × ElemSpec)) : World :=
  elems.foldl sbStep w

/-- Model of the instance method `destroy()`: detach the recorded
listeners (not part of the world), remove the marker, evict the registry
entry, then dispatch `selectbox:destroy` — with no destroyed-state guard. -/
def instanceDestroy (w : World) (e : Nat) : World :=
  { w with marked := w.marked.filter (fun x => x ≠ e),
           registry := w.registry.filter (fun p => p.1 ≠ e),
           events := w.events ++ [LEvent.destroyEvt e] }

/-- Model of `templUI.selectbox.destroy(selector)` for one element:
resolve the instance through the registry and call its `destroy()`
(`instance?.destroy()` — a failed lookup is a no-op). -/
def publicDestroy (w : World) (e : Nat) : World :=
  match lookupInstance w e with
  | none => w
  | some _ => instanceDestroy w e

/-- Number of `selectbox:destroy` events dispatched on element `e`. -/
def destroyCount (evs : List LEvent) (e : Nat) : Nat :=
  (evs.filter (fun x => x = LEvent.destroyEvt e)).length

/-- Number of `selectbox:init` events dispatched on element `e`. -/
def initCount (evs : List LEvent) (e : Nat) : Nat :=
  (evs.filter (fun x => x = LEvent.initEvt e)).length

/-- Number of registry entries for element `e`. -/
def countKey (reg : List (Nat × Nat)) (e : Nat) : Nat :=
  (reg.filter (fun p => p.1 = e)).length

/-- Model of `initStepper(container)`: return at once on a marked
container, otherwise mark it and build its closures. -/
def stepperStep (acc : World) (e : Nat) : World :=
  if e ∈ acc.marked then acc
  else { acc with marked := acc.marked ++ [e],
                  constructions := acc.constructions + 1 }

/-- Model of the stepper discovery pass: the
`[data-stepper]:not([data-initialized])` query excludes already-marked
containers up front, then `initStepper` runs on each match. -/
def stepperScan (w : World) (elems : List Nat) : World :=
  (elems.filter (fun e => e ∉ w.marked)).foldl stepperStep w

/-- A `.select-container` whose trigger button is missing. -/
def noTriggerSpec : ElemSpec :=
  { hasTrigger := false, hasContent := true, hasValueEl := true, hasHiddenInput := true }

/-- The world after initializing one structurally complete element. -/
def oneGoodWorld : World :=
  sbScan emptyWorld [(0, goodSpec)]

end TemplUI.Life

namespace TemplUI.SB

/-- Three options `a`, `b`, `c`, none pre-selected. -/
def sampleItems : List Item :=
  [⟨"a", "Apple", false, false⟩, ⟨"b", "Banana", false, false⟩, ⟨"c", "Cherry", false, false⟩]

/-- A freshly initialized single-select control over `sampleItems`. -/
def singleState : State :=
  { multiple := false, showPills := false,
    selectedCountText := "{n} items selected", placeholder := "Select...",
    selectedValues := [], isSelecting := false, items := sampleItems,
    hiddenValue := "", valueText := Display.text "Select...",
    searchText := "", hasSearch := false, events := [] }

/-- A freshly initialized multi-select control over `sampleItems`. -/
def multiState : State :=
  { singleState with multiple := true }

end TemplUI.SB

namespace TemplUI.Step

/-- A three-step sequencer sitting at step 1. -/
def sampleSM : SM :=
  { numbers := canonicalNumbers 3,
    statuses := ["active", "incomplete", "incomplete"],
    contentNumbers := canonicalNumbers 3,
    contentVisible := [true, false, false],
    currentStep := 1, events := [] }

end TemplUI.Step

/-! # Lemmas and theorems -/

namespace TemplUI.Life

theorem constructSB_registry (w : World) (e : Nat) (sp : ElemSpec) :
    (constructSB w e sp).registry = w.registry := by
  rcases sp with ⟨t, c, v, h⟩
  cases t <;> cases c <;> cases v <;> cases h <;> simp [constructSB]

theorem constructSB_nextInst (w : World) (e : Nat) (sp : ElemSpec) :
    (constructSB w e sp).nextInst = w.nextInst := by
  rcases sp with ⟨t, c, v, h⟩
  cases t <;> cases c <;> cases v <;> cases h <;> simp [constructSB]

theorem constructSB_marked (w : World) (e : Nat) (sp : ElemSpec) :
    (constructSB w e sp).marked =
      (if e ∈ w.marked then w.marked else w.marked ++ [e]) := by
  rcases sp with ⟨t, c, v, h⟩
  cases t <;> cases c <;> cases v <;> cases h <;> simp [constructSB]

theorem constructSB_events (w : World) (e : Nat) (sp : ElemSpec) :
    (constructSB w e sp).events =
      w.events ++ (if structurallyOk sp then [LEvent.initEvt e] else []) := by
  rcases sp with ⟨t, c, v, h⟩
  cases t <;> cases c <;> cases v <;> cases h <;>
    simp [constructSB, structurallyOk]

theorem registered_sbStep_mono (w : World) (p : Nat × ElemSpec) (e : Nat)
    (h : registered w e = true) : registered (sbStep w p) e = true := by
  unfold sbStep
  split
  · exact h
  · simp only [registered] at h ⊢
    simp [constructSB_registry, List.any_append, h]

theorem registered_sbStep_self (w : World) (p : Nat × ElemSpec) :
    registered (sbStep w p) p.1 = true := by
  unfold sbStep
  split
  · assumption
  · simp [registered, constructSB_registry, List.any_append]

theorem sbStep_id_of_registered (w : World) (p : Nat × ElemSpec)
    (h : registered w p.1 = true) : sbStep w p = w := by
  unfold sbStep
  rw [if_pos h]

theorem registered_sbScan_mono :
    ∀ (l : List (Nat × ElemSpec)) (w : World) (e : Nat),
      registered w e = true → registered (sbScan w l) e = true := by
  intro l
  induction l with
  | nil => intro w e h; exact h
  | cons p rest ih =>
    intro w e h
    exact ih (sbStep w p) e (registered_sbStep_mono w p e h)

theorem sbScan_registers :
    ∀ (l : List (Nat × ElemSpec)) (w : World) (p : Nat × ElemSpec),
      p ∈ l → registered (sbScan w l) p.1 = true := by
  intro l
  induction l with
  | nil => intro w p h; cases h
  | cons q rest ih =>
    intro w p h
    rcases List.mem_cons.mp h with h1 | h2
    · subst h1
      exact registered_sbScan_mono rest (sbStep w p) p.1 (registered_sbStep_self w p)
    · exact ih (sbStep w q) p h2

theorem sbScan_id_of_registered :
    ∀ (l : List (Nat × ElemSpec)) (w : World),
      (∀ p ∈ l, registered w p.1 = true) → sbScan w l = w := by
  intro l
  induction l with
  | nil => intro w _; rfl
  | cons q rest ih =>
    intro w h
    have hq : sbStep w q = w :=
      sbStep_id_of_registered w q (h q (List.mem_cons_self q rest))
    show sbScan (sbStep w q) rest = w
    rw [hq]
    exact ih w (fun p hp => h p (List.mem_cons_of_mem q hp))

theorem countKey_append (l1 l2 : List (Nat × Nat)) (e : Nat) :
    countKey (l1 ++ l2) e = countKey l1 e + countKey l2 e := by
  simp [countKey, List.filter_append]

theorem countKey_zero_of_not_registered (w : World) (e : Nat)
    (h : registered w e = false) : countKey w.registry e = 0 := by
  simp only [registered, List.any_eq_false, decide_eq_true_eq] at h
  simp only [countKey, List.length_eq_zero, List.filter_eq_nil_iff]
  intro p hp
  simpa using h p hp

theorem countKey_sbStep_of_registered (w : World) (p : Nat × ElemSpec) (e : Nat)
    (h : registered w e = true) :
    countKey (sbStep w p).registry e = countKey w.registry e := by
  unfold sbStep
  split
  · rfl
  · rename_i hg
    have hne : ¬ p.1 = e := by
      intro he
      exact hg (he ▸ h)
    simp [constructSB_registry, countKey_append, countKey, hne]

theorem countKey_sbScan_of_registered :
    ∀ (l : List (Nat × ElemSpec)) (w : World) (e : Nat),
      registered w e = true →
      countKey (sbScan w l).registry e = countKey w.registry e := by
  intro l
  induction l with
  | nil => intro w e _; rfl
  | cons q rest ih =>
    intro w e h
    show countKey (sbScan (sbStep w q) rest).registry e = countKey w.registry e
    rw [ih (sbStep w q) e (registered_sbStep_mono w q e h)]
    exact countKey_sbStep_of_registered w q e h

theorem registered_sbStep_other (w : World) (q : Nat × ElemSpec) (e : Nat)
    (hreg : registered w e = false) (hne : ¬ q.1 = e) :
    registered (sbStep w q) e = false := by
  unfold sbStep
  split
  · exact hreg
  · simp only [registered, constructSB_registry, List.any_append] at *
    simp [hreg, hne]

theorem countKey_sbScan_one :
    ∀ (l : List (Nat × ElemSpec)) (w : World) (e : Nat),
      registered w e = false → e ∈ l.map Prod.fst →
      countKey (sbScan w l).registry e = 1 := by
  intro l
  induction l with
  | nil => intro w e _ h; simp at h
  | cons q rest ih =>
    intro w e hreg hmem
    by_cases hqe : q.1 = e
    · have hq : registered w q.1 = false := by rw [hqe]; exact hreg
      have hstep : countKey (sbStep w q).registry e = 1 := by
        unfold sbStep
        rw [if_neg (by simp [hq])]
        show countKey
          ((constructSB w q.1 q.2).registry
            ++ [(q.1, (constructSB w q.1 q.2).nextInst)]) e = 1
        rw [constructSB_registry, countKey_append,
          countKey_zero_of_not_registered w e hreg]
        simp [countKey, hqe]
      have hrege : registered (sbStep w q) e = true := by
        rw [← hqe]; exact registered_sbStep_self w q
      show countKey (sbScan (sbStep w q) rest).registry e = 1
      rw [countKey_sbScan_of_registered rest (sbStep w q) e hrege, hstep]
    · have hmem2 : e ∈ rest.map Prod.fst := by
        rcases List.mem_cons.mp hmem with h1 | h2
        · exact absurd h1.symm hqe
        · exact h2
      exact ih (sbStep w q) e (registered_sbStep_other w q e hreg hqe) hmem2

theorem find?_key_filter_ne (l : List (Nat × Nat)) (e : Nat) :
    (l.filter (fun p => p.1 ≠ e)).find? (fun p => p.1 = e) = none := by
  induction l with
  | nil => rfl
  | cons p rest ih =>
    by_cases h : p.1 = e
    · simp [List.filter_cons, h, ih]
    · simp [List.filter_cons, h, List.find?_cons, ih]

theorem lookupInstance_instanceDestroy (w : World) (e : Nat) :
    lookupInstance (instanceDestroy w e) e = none := by
  simp [lookupInstance, instanceDestroy, find?_key_filter_ne]

theorem destroyCount_instanceDestroy (w : World) (e : Nat) :
    destroyCount (instanceDestroy w e).events e = destroyCount w.events e + 1 := by
  simp [destroyCount, instanceDestroy, List.filter_append]

theorem sbStep_not_registered (w : World) (p : Nat × ElemSpec)
    (h : registered w p.1 = false) :
    sbStep w p =
      { constructSB w p.1 p.2 with
        registry := (constructSB w p.1 p.2).registry
          ++ [(p.1, (constructSB w p.1 p.2).nextInst)],
        nextInst := (constructSB w p.1 p.2).nextInst + 1 } := by
  unfold sbStep
  rw [if_neg (by simp [h])]

theorem sbStep_events_not_registered (w : World) (p : Nat × ElemSpec)
    (h : registered w p.1 = false) :
    (sbStep w p).events =
      w.events ++ (if structurallyOk p.2 then [LEvent.initEvt p.1] else []) := by
  rw [sbStep_not_registered w p h]
  exact constructSB_events w p.1 p.2

theorem sbStep_marked_not_registered (w : World) (p : Nat × ElemSpec)
    (h : registered w p.1 = false) :
    (sbStep w p).marked =
      (if p.1 ∈ w.marked then w.marked else w.marked ++ [p.1]) := by
  rw [sbStep_not_registered w p h]
  exact constructSB_marked w p.1 p.2

theorem initCount_append (l1 l2 : List LEvent) (e : Nat) :
    initCount (l1 ++ l2) e = initCount l1 e + initCount l2 e := by
  simp [initCount, List.filter_append]

/-- C1 counterexample: on the world holding one fully constructed
instance, invoking the instance-level `destroy()` twice dispatches the
`selectbox:destroy` notification twice — refuting, at this concrete
instance, that the event fires exactly once no matter how many times
`destroy()` is invoked. -/
theorem destroy_twice_redispatches_event :
    destroyCount (instanceDestroy (instanceDestroy oneGoodWorld 0) 0).events 0 = 2 ∧
    ¬ destroyCount (instanceDestroy (instanceDestroy oneGoodWorld 0) 0).events 0 = 1 := by
  constructor <;> decide

/-- C1 (amended): a second `destroy()` never raises an error; destruction
through the public registry surface (`templUI.selectbox.destroy(selector)`)
is a safe no-op the second time — the registry entry was evicted, so the
lookup fails and no second `selectbox:destroy` fires — while the unguarded
instance method itself re-dispatches `selectbox:destroy` on every
invocation. -/
theorem destroy_double_invocation_behaviour :
    (∀ (w : World) (e : Nat),
        publicDestroy (publicDestroy w e) e = publicDestroy w e) ∧
    (∀ (w : World) (e : Nat),
        destroyCount (instanceDestroy w e).events e = destroyCount w.events e + 1) := by
  constructor
  · intro w e
    unfold publicDestroy
    cases h : lookupInstance w e with
    | none => simp only [h]
    | some i => simp only [h, lookupInstance_instanceDestroy]
  · intro w e
    exact destroyCount_instanceDestroy w e

/-- C2 counterexample: an element whose trigger button is missing still
carries the `data-initialized` marker after the aborted construction, and
a (partially constructed) instance for it is present in the registry —
refuting that it "remains unmarked" with "no instance registered". -/
theorem failed_construction_marks_and_registers :
    0 ∈ (sbScan emptyWorld [(0, noTriggerSpec)]).marked ∧
    registered (sbScan emptyWorld [(0, noTriggerSpec)]) 0 = true := by
  constructor <;> decide

/-- C2 (amended): construction for a structurally deficient element logs a
diagnostic and aborts before any setup — no `selectbox:init` notification
is dispatched for it, no exception propagates, and the scan continues with
the other elements — but the element keeps the `data-initialized` marker
(set before the structural checks) and the partially constructed instance
stays in the registry. -/
theorem failed_construction_skips_init_scan_continues
    (w : World) (e1 e2 : Nat) (sp : ElemSpec)
    (hbad : structurallyOk sp = false)
    (h1 : registered w e1 = false) (h2 : registered w e2 = false)
    (hne : e1 ≠ e2) :
    initCount (sbScan w [(e1, sp), (e2, goodSpec)]).events e1
        = initCount w.events e1 ∧
    initCount (sbScan w [(e1, sp), (e2, goodSpec)]).events e2
        = initCount w.events e2 + 1 ∧
    e1 ∈ (sbScan w [(e1, sp), (e2, goodSpec)]).marked ∧
    registered (sbScan w [(e1, sp), (e2, goodSpec)]) e1 = true := by
  have hscan : sbScan w [(e1, sp), (e2, goodSpec)]
      = sbStep (sbStep w (e1, sp)) (e2, goodSpec) := rfl
  have hr1 : registered (sbStep w (e1, sp)) e1 = true :=
    registered_sbStep_self w (e1, sp)
  have hr2 : registered (sbStep w (e1, sp)) e2 = false :=
    registered_sbStep_other w (e1, sp) e2 h2 (by simpa using hne)
  have hev1 : (sbStep w (e1, sp)).events = w.events := by
    rw [sbStep_events_not_registered w (e1, sp) h1]
    simp [hbad]
  have hev2 : (sbStep (sbStep w (e1, sp)) (e2, goodSpec)).events
      = w.events ++ [LEvent.initEvt e2] := by
    rw [sbStep_events_not_registered (sbStep w (e1, sp)) (e2, goodSpec) hr2, hev1]
    simp [structurallyOk, goodSpec]
  have hm1 : e1 ∈ (sbStep w (e1, sp)).marked := by
    rw [sbStep_marked_not_registered w (e1, sp) h1]
    split
    · assumption
    · simp
  refine ⟨?_, ?_, ?_, ?_⟩
  · rw [hscan, hev2, initCount_append]
    simp [initCount, Ne.symm hne]
  · rw [hscan, hev2, initCount_append]
    simp [initCount]
  · rw [hscan, sbStep_marked_not_registered (sbStep w (e1, sp)) (e2, goodSpec) hr2]
    split
    · exact hm1
    · exact List.mem_append_left _ hm1
  · rw [hscan]
    exact registered_sbStep_mono (sbStep w (e1, sp)) (e2, goodSpec) e1 hr1

/-- C2 witness: at the concrete deficient element 0 and healthy element 1,
the hypotheses hold and the scan still initializes element 1. -/
theorem failed_construction_skips_init_scan_continues_witness :
    structurallyOk noTriggerSpec = false ∧
    initCount (sbScan emptyWorld [(0, noTriggerSpec), (1, goodSpec)]).events 1
      = initCount emptyWorld.events 1 + 1 :=
  ⟨by decide,
   (failed_construction_skips_init_scan_continues emptyWorld 0 1 noTriggerSpec
      (by decide) (by decide) (by decide) (by decide)).2.1⟩

/-- C9: `init` is idempotent — a second scan over the same elements is the
identity (no construction happens), a previously unregistered element ends
with exactly one registry entry, and the stepper discovery pass skips an
already-marked container. -/
theorem init_idempotent_single_instance :
    (∀ (w : World) (l : List (Nat × ElemSpec)),
        sbScan (sbScan w l) l = sbScan w l) ∧
    (∀ (w : World) (l : List (Nat × ElemSpec)) (e : Nat),
        registered w e = false → e ∈ l.map Prod.fst →
        countKey (sbScan w l).registry e = 1) ∧
    (∀ (w : World) (e : Nat), e ∈ w.marked → stepperScan w [e] = w) := by
  refine ⟨?_, ?_, ?_⟩
  · intro w l
    exact sbScan_id_of_registered l (sbScan w l) (fun p hp => sbScan_registers l w p hp)
  · intro w l e h1 h2
    exact countKey_sbScan_one l w e h1 h2
  · intro w e h
    simp [stepperScan, h]

/-- C9 witness: two healthy elements scanned from the fresh world end with
one registry entry each, and a marked stepper container is skipped. -/
theorem init_idempotent_single_instance_witness :
    countKey (sbScan emptyWorld [(0, goodSpec), (1, goodSpec)]).registry 0 = 1 ∧
    stepperScan { emptyWorld with marked := [5] } [5]
      = { emptyWorld with marked := [5] } :=
  ⟨init_idempotent_single_instance.2.1 emptyWorld [(0, goodSpec), (1, goodSpec)] 0
      (by decide) (by decide),
   init_idempotent_single_instance.2.2 { emptyWorld with marked := [5] } 5 (by decide)⟩

end TemplUI.Life

namespace TemplUI.Step

theorem canonicalNumbers_length (N : Nat) :
    (canonicalNumbers N).length = N := by
  unfold canonicalNumbers
  rw [List.length_map, List.length_range]

theorem canonicalNumbers_getq (N i : Nat) (hi : i < N) :
    (canonicalNumbers N).get? i = some ((i : Int) + 1) := by
  unfold canonicalNumbers
  rw [List.get?_map, List.get?_range hi]
  rfl

/-- C4: on a sequencer whose steps are numbered `1..N`, `goToStep(0)` and
`goToStep(N+1)` leave the whole state (current step and stored statuses
included) unchanged, `prevStep()` at step 1 and `nextStep()` at step `N`
are no-ops, and for `1 ≤ n ≤ N` the scan after `goToStep(n)` stores
status `completed` for steps below `n`, `active` for step `n`, and
`incomplete` above. -/
theorem stepper_bounds_and_statuses (N : Nat) (sm : SM)
    (hnum : sm.numbers = canonicalNumbers N) :
    goToStep sm 0 = sm ∧
    goToStep sm ((N : Int) + 1) = sm ∧
    (sm.currentStep = 1 → prevStep sm = sm) ∧
    (sm.currentStep = (N : Int) → nextStep sm = sm) ∧
    (∀ n : Int, 1 ≤ n → n ≤ (N : Int) →
      ∀ i : Nat, i < N →
        (goToStep sm n).statuses.get? i =
          some (if ((i : Int) + 1) < n then "completed"
                else if ((i : Int) + 1) = n then "active"
                else "incomplete")) := by
  have hlen : (sm.numbers.length : Int) = (N : Int) := by
    rw [hnum, canonicalNumbers_length]
  refine ⟨?_, ?_, ?_, ?_, ?_⟩
  · unfold goToStep
    rw [if_pos (Or.inl (by norm_num))]
  · unfold goToStep
    rw [if_pos (Or.inr (by rw [hlen]; omega))]
  · intro h
    unfold prevStep
    rw [if_neg (by rw [h]; omega)]
  · intro h
    unfold nextStep
    rw [if_neg (by rw [h, hlen]; omega)]
  · intro n h1 h2 i hi
    have hc : ¬ (n < 1 ∨ n > (sm.numbers.length : Int)) := by
      rw [hlen]; omega
    unfold goToStep
    rw [if_neg hc]
    show ((sm.numbers.map (fun m => statusOf m n)).get? i) = _
    rw [hnum, List.get?_map, canonicalNumbers_getq N i hi]
    simp [statusOf]

/-- C4 witness: at the concrete three-step sequencer, `prevStep` at step 1
is a no-op and after `goToStep(2)` step 1 reads `completed`. -/
theorem stepper_bounds_and_statuses_witness :
    sampleSM.currentStep = 1 ∧ prevStep sampleSM = sampleSM ∧
    (goToStep sampleSM 2).statuses.get? 0 = some "completed" := by
  have h := stepper_bounds_and_statuses 3 sampleSM rfl
  refine ⟨rfl, h.2.2.1 rfl, ?_⟩
  have h2 := h.2.2.2.2 2 (by decide) (by decide) 0 (by decide)
  rw [h2]
  norm_num

end TemplUI.Step

namespace TemplUI

theorem matchISODate_nil : matchISODate ([] : List Char) = none := rfl

theorem matchISODateTime_nil : matchISODateTime ([] : List Char) = none := rfl

/-- C5: `parseISODate` returns `none` for every string matching the ISO
date shape whose components, reconstructed as a UTC instant, do not read
back as the same calendar date; in particular `"2023-02-30"` and
`"2023-13-01"` parse to `none` while `"2023-06-15"` parses to the UTC
midnight instant of that date. -/
theorem dateparser_roundtrip_validation :
    (∀ (s : String) (y mo d : Int),
        matchISODate s.toList = some (y, mo, d) →
        getUTCYmd (dateUTC y (mo - 1) d 0 0 0) ≠ (y, mo, d) →
        parseISODate s = none) ∧
    (∀ (s : String) (y mo d h mi sec : Int),
        matchISODateTime s.toList = some (y, mo, d, h, mi, sec) →
        getUTCYmd (dateUTC y (mo - 1) d h mi sec) ≠ (y, mo, d) →
        parseISODateTime s = none) ∧
    parseISODate "2023-02-30" = none ∧
    parseISODate "2023-13-01" = none ∧
    parseISODateTime "2023-02-30" = none ∧
    parseISODateTime "2023-13-01" = none ∧
    parseISODate "2023-06-15" = some 1686787200 ∧
    getUTCYmd 1686787200 = (2023, 6, 15) := by
  refine ⟨?_, ?_, by decide, by decide, by decide, by decide, by decide, by decide⟩
  case refine_2 =>
    intro s y mo d h mi sec hm hne
    have hs : ¬ s = "" := by
      intro he
      rw [he] at hm
      simp only [String.toList] at hm
      rw [matchISODateTime_nil] at hm
      cases hm
    have hcond : ¬ ((getUTCYmd (dateUTC y (mo - 1) d h mi sec)).1 = y ∧
        (getUTCYmd (dateUTC y (mo - 1) d h mi sec)).2.1 - 1 = mo - 1 ∧
        (getUTCYmd (dateUTC y (mo - 1) d h mi sec)).2.2 = d) := by
      rintro ⟨ha, hb, hc⟩
      apply hne
      have hb2 : (getUTCYmd (dateUTC y (mo - 1) d h mi sec)).2.1 = mo := by omega
      rw [Prod.ext_iff]
      refine ⟨ha, ?_⟩
      rw [Prod.ext_iff]
      exact ⟨hb2, hc⟩
    simp only [parseISODateTime, if_neg hs, parseISODateTimeCore, hm]
    rw [if_neg hcond]
  intro s y mo d hm hne
  have hs : ¬ s = "" := by
    intro he
    rw [he] at hm
    simp only [String.toList] at hm
    rw [matchISODate_nil] at hm
    cases hm
  have hcond : ¬ ((getUTCYmd (dateUTC y (mo - 1) d 0 0 0)).1 = y ∧
      (getUTCYmd (dateUTC y (mo - 1) d 0 0 0)).2.1 - 1 = mo - 1 ∧
      (getUTCYmd (dateUTC y (mo - 1) d 0 0 0)).2.2 = d) := by
    rintro ⟨ha, hb, hc⟩
    apply hne
    have hb2 : (getUTCYmd (dateUTC y (mo - 1) d 0 0 0)).2.1 = mo := by omega
    rw [Prod.ext_iff]
    refine ⟨ha, ?_⟩
    rw [Prod.ext_iff]
    exact ⟨hb2, hc⟩
  simp only [parseISODate, if_neg hs, hm]
  rw [if_neg hcond]

/-- C10: the date-time parser's pattern has no end anchor — anything after
the matched prefix is ignored — and it validates only the calendar-date
components, so out-of-range time components are accepted whenever the
overflow stays within the same UTC calendar date; in particular
`"2023-01-15T00:99"` parses to 2023-01-15 01:39:00 UTC rather than `none`. -/
theorem datetime_parser_unanchored_laxity :
    (∀ junk : List Char,
        parseISODateTimeCore (("2023-01-15T10:30:45").toList ++ junk)
          = parseISODateTimeCore ("2023-01-15T10:30:45").toList) ∧
    parseISODateTime "2023-01-15T00:99" = some 1673746740 ∧
    getUTCYmd 1673746740 = (2023, 1, 15) ∧
    utcTimeOfDay 1673746740 = 1 * 3600 + 39 * 60 ∧
    (∀ (s : String) (y mo d h mi sec : Int),
        matchISODateTime s.toList = some (y, mo, d, h, mi, sec) →
        getUTCYmd (dateUTC y (mo - 1) d h mi sec) = (y, mo, d) →
        parseISODateTime s = some (dateUTC y (mo - 1) d h mi sec)) := by
  refine ⟨fun junk => rfl, by decide, by decide, by decide, ?_⟩
  intro s y mo d h mi sec hm hg
  have hs : ¬ s = "" := by
    intro he
    rw [he] at hm
    simp only [String.toList] at hm
    rw [matchISODateTime_nil] at hm
    cases hm
  have hcond : (getUTCYmd (dateUTC y (mo - 1) d h mi sec)).1 = y ∧
      (getUTCYmd (dateUTC y (mo - 1) d h mi sec)).2.1 - 1 = mo - 1 ∧
      (getUTCYmd (dateUTC y (mo - 1) d h mi sec)).2.2 = d := by
    rw [Prod.ext_iff, Prod.ext_iff] at hg
    have h21 : (getUTCYmd (dateUTC y (mo - 1) d h mi sec)).2.1 = mo := hg.2.1
    have h1 : (getUTCYmd (dateUTC y (mo - 1) d h mi sec)).1 = y := hg.1
    have h22 : (getUTCYmd (dateUTC y (mo - 1) d h mi sec)).2.2 = d := hg.2.2
    exact ⟨h1, by omega, h22⟩
  simp only [parseISODateTime, if_neg hs, parseISODateTimeCore, hm]
  rw [if_pos hcond]

/-- C10 witness: the laxity theorem applied at the concrete input
`"2023-01-15T00:99"`, whose overflowing minutes stay inside the day. -/
theorem datetime_parser_unanchored_laxity_witness :
    matchISODateTime ("2023-01-15T00:99").toList = some (2023, 1, 15, 0, 99, 0) ∧
    parseISODateTime "2023-01-15T00:99" = some (dateUTC 2023 0 15 0 99 0) :=
  ⟨by decide,
   datetime_parser_unanchored_laxity.2.2.2.2 "2023-01-15T00:99" 2023 1 15 0 99 0
     (by decide) (by decide)⟩

/-- C7 counterexample: with a locale facility that throws on every options
record except the fixed medium/UTC retry configuration, the date-time path
returns the instant's ISO string instead of retrying with the medium/UTC
configuration as the claimed two-level fallback would. -/
theorem datetime_format_fallback_single_level :
    formatDateTimeWithIntl fmtMediumOnly (some 1686787200) "locale-short" "en-US"
        false false true = "2023-06-15T00:00:00.000Z" ∧
    specTwoLevelDateTimeFallback fmtMediumOnly (some 1686787200) "locale-short" "en-US"
        false false true = "Jun 15, 2023" ∧
    "2023-06-15T00:00:00.000Z" ≠ "Jun 15, 2023" := by
  refine ⟨by decide, by decide, by decide⟩

/-- C7 (amended): the date-only path absorbs a facility failure with the
two-level fallback (retry with the fixed medium/UTC options, then the
manually composed `YYYY-MM-DD` string), while the date-time path absorbs
it with a single-level fallback to the instant's ISO string; in both paths
no error reaches the caller. -/
theorem format_fallback_structure :
    (∀ (fmt : IntlFacility) (t : Int) (format localeTag : String),
        (∀ s, fmt (dateOnlyOptions format) localeTag t = some s →
            formatDateWithIntl fmt (some t) format localeTag = s) ∧
        (fmt (dateOnlyOptions format) localeTag t = none →
            ∀ s, fmt mediumFallbackOptions localeTag t = some s →
              formatDateWithIntl fmt (some t) format localeTag = s) ∧
        (fmt (dateOnlyOptions format) localeTag t = none →
            fmt mediumFallbackOptions localeTag t = none →
              formatDateWithIntl fmt (some t) format localeTag = manualYMD t)) ∧
    (∀ (fmt : IntlFacility) (t : Int) (format localeTag : String)
        (withTime withSeconds with24Hours : Bool),
        fmt (dateTimeOptions format withTime withSeconds with24Hours) localeTag t = none →
          formatDateTimeWithIntl fmt (some t) format localeTag withTime withSeconds with24Hours
            = toISOString t) := by
  constructor
  · intro fmt t format localeTag
    refine ⟨?_, ?_, ?_⟩
    · intro s h
      simp [formatDateWithIntl, h]
    · intro h1 s h2
      simp [formatDateWithIntl, h1, h2]
    · intro h1 h2
      simp [formatDateWithIntl, h1, h2]
  · intro fmt t format localeTag withTime withSeconds with24Hours h
    simp [formatDateTimeWithIntl, h]

/-- C7 witness: with the always-failing facility both paths hit their
final fallback at the concrete instant for 2023-06-15. -/
theorem format_fallback_structure_witness :
    fmtAlwaysFails (dateOnlyOptions "locale-short") "en-US" 1686787200 = none ∧
    formatDateWithIntl fmtAlwaysFails (some 1686787200) "locale-short" "en-US"
      = manualYMD 1686787200 ∧
    formatDateTimeWithIntl fmtAlwaysFails (some 1686787200) "locale-short" "en-US"
      true true true = toISOString 1686787200 :=
  ⟨rfl,
   (format_fallback_structure.1 fmtAlwaysFails 1686787200 "locale-short" "en-US").2.2 rfl rfl,
   format_fallback_structure.2 fmtAlwaysFails 1686787200 "locale-short" "en-US"
     true true true rfl⟩

end TemplUI

namespace TemplUI

/-- C5 witness: the rejection theorem applied at the concrete impossible
date `"2023-02-30"`, whose reconstructed instant reads back as March 2. -/
theorem dateparser_roundtrip_validation_witness :
    matchISODate ("2023-02-30").toList = some (2023, 2, 30) ∧
    parseISODate "2023-02-30" = none :=
  ⟨by decide,
   dateparser_roundtrip_validation.1 "2023-02-30" 2023 2 30 (by decide) (by decide)⟩

end TemplUI

namespace TemplUI.SB

theorem updateDisplay_selectedValues (st : State) :
    (updateDisplay st).selectedValues = st.selectedValues := by
  unfold updateDisplay
  dsimp only
  repeat' split
  all_goals rfl

theorem updateDisplay_hiddenValue (st : State) :
    (updateDisplay st).hiddenValue = st.hiddenValue := by
  unfold updateDisplay
  dsimp only
  repeat' split
  all_goals rfl

theorem updateDisplay_events (st : State) :
    (updateDisplay st).events = st.events := by
  unfold updateDisplay
  dsimp only
  repeat' split
  all_goals rfl

theorem updateDisplay_multiple (st : State) :
    (updateDisplay st).multiple = st.multiple := by
  unfold updateDisplay
  dsimp only
  repeat' split
  all_goals rfl

theorem updateHiddenInput_selectedValues (st : State) :
    (updateHiddenInput st).selectedValues = st.selectedValues := by
  unfold updateHiddenInput
  dsimp only
  split <;> rfl

theorem updateHiddenInput_multiple (st : State) :
    (updateHiddenInput st).multiple = st.multiple := by
  unfold updateHiddenInput
  dsimp only
  split <;> rfl

theorem updateHiddenInput_events (st : State) :
    (updateHiddenInput st).events = st.events ++
      (if st.hiddenValue ≠ String.intercalate "," st.selectedValues
       then [Event.hiddenChange] else []) := by
  unfold updateHiddenInput
  dsimp only
  split
  · rfl
  · simp

theorem hiddenCount_append (l1 l2 : List Event) :
    hiddenCount (l1 ++ l2) = hiddenCount l1 + hiddenCount l2 := by
  simp [hiddenCount, List.filter_append]

theorem hiddenCount_updateHiddenInput (st : State) :
    hiddenCount (updateHiddenInput st).events = hiddenCount st.events +
      (if st.hiddenValue ≠ String.intercalate "," st.selectedValues then 1 else 0) := by
  rw [updateHiddenInput_events, hiddenCount_append]
  split <;> simp [hiddenCount]

theorem afterMutation_hiddenCount (st1 : State) (prev : List String) (item : Option String) :
    hiddenCount (afterMutation st1 prev item).events = hiddenCount st1.events +
      (if st1.hiddenValue ≠ String.intercalate "," st1.selectedValues then 1 else 0) := by
  unfold afterMutation
  show hiddenCount ((updateHiddenInput (updateDisplay st1)).events ++ [_]) = _
  rw [hiddenCount_append, hiddenCount_updateHiddenInput, updateDisplay_events,
    updateDisplay_hiddenValue, updateDisplay_selectedValues]
  simp [hiddenCount]

theorem afterMutation_selectedValues (st1 : State) (prev : List String) (item : Option String) :
    (afterMutation st1 prev item).selectedValues = st1.selectedValues := by
  unfold afterMutation
  show (updateHiddenInput (updateDisplay st1)).selectedValues = _
  rw [updateHiddenInput_selectedValues, updateDisplay_selectedValues]

theorem afterMutation_multiple (st1 : State) (prev : List String) (item : Option String) :
    (afterMutation st1 prev item).multiple = st1.multiple := by
  unfold afterMutation
  show (updateHiddenInput (updateDisplay st1)).multiple = _
  rw [updateHiddenInput_multiple, updateDisplay_multiple]

theorem hiddenCount_selectItem (st : State) (v : String)
    (hsel : st.isSelecting = false) :
    hiddenCount (selectItem st v).events = hiddenCount st.events +
      (if st.hiddenValue ≠ String.intercalate "," ((selectItem st v).selectedValues)
       then 1 else 0) := by
  by_cases hm : st.multiple = true
  · by_cases hv : v ∈ st.selectedValues
    · simp only [selectItem, hsel, Bool.false_eq_true, if_false, hm, if_true, hv]
      rw [afterMutation_hiddenCount, afterMutation_selectedValues]
    · simp only [selectItem, hsel, Bool.false_eq_true, if_false, hm, if_true, hv]
      rw [afterMutation_hiddenCount, afterMutation_selectedValues]
  · simp only [selectItem, hsel, Bool.false_eq_true, if_false, hm]
    rw [afterMutation_hiddenCount, afterMutation_selectedValues]

theorem setValueStep_events (st : State) (v? : Option String) :
    (setValueStep st v?).events = st.events := by
  cases v? with
  | none => rfl
  | some v =>
    unfold setValueStep
    repeat' split
    all_goals rfl

theorem setValueStep_hiddenValue (st : State) (v? : Option String) :
    (setValueStep st v?).hiddenValue = st.hiddenValue := by
  cases v? with
  | none => rfl
  | some v =>
    unfold setValueStep
    repeat' split
    all_goals rfl

theorem setValueStep_multiple (st : State) (v? : Option String) :
    (setValueStep st v?).multiple = st.multiple := by
  cases v? with
  | none => rfl
  | some v =>
    unfold setValueStep
    repeat' split
    all_goals rfl

theorem setValueFold_events :
    ∀ (l : List (Option String)) (st : State),
      (l.foldl setValueStep st).events = st.events := by
  intro l
  induction l with
  | nil => intro st; rfl
  | cons v? rest ih =>
    intro st
    show (rest.foldl setValueStep (setValueStep st v?)).events = st.events
    rw [ih (setValueStep st v?), setValueStep_events]

theorem setValueFold_hiddenValue :
    ∀ (l : List (Option String)) (st : State),
      (l.foldl setValueStep st).hiddenValue = st.hiddenValue := by
  intro l
  induction l with
  | nil => intro st; rfl
  | cons v? rest ih =>
    intro st
    show (rest.foldl setValueStep (setValueStep st v?)).hiddenValue = st.hiddenValue
    rw [ih (setValueStep st v?), setValueStep_hiddenValue]

theorem setValueFold_multiple :
    ∀ (l : List (Option String)) (st : State),
      (l.foldl setValueStep st).multiple = st.multiple := by
  intro l
  induction l with
  | nil => intro st; rfl
  | cons v? rest ih =>
    intro st
    show (rest.foldl setValueStep (setValueStep st v?)).multiple = st.multiple
    rw [ih (setValueStep st v?), setValueStep_multiple]

theorem hiddenCount_setValue (st : State) (l : List (Option String)) :
    hiddenCount (setValue st l).events = hiddenCount st.events +
      (if st.hiddenValue ≠ String.intercalate "," ((setValue st l).selectedValues)
       then 1 else 0) := by
  simp only [setValue]
  rw [afterMutation_hiddenCount]
  simp only [afterMutation_selectedValues, setValueFold_events, setValueFold_hiddenValue]

theorem hiddenCount_reset (st : State) :
    hiddenCount (reset st).events = hiddenCount st.events + 1 := by
  unfold reset
  dsimp only
  split <;> simp [hiddenCount, List.filter_append]

end TemplUI.SB

namespace TemplUI.SB

theorem selectItem_guarded (st : State) (v : String)
    (h : st.isSelecting = true) : selectItem st v = st := by
  unfold selectItem
  rw [if_pos h]

theorem selectItem_single_selectedValues (st : State) (v : String)
    (hsel : st.isSelecting = false) (hm : st.multiple = false) :
    (selectItem st v).selectedValues = [v] := by
  simp only [selectItem, hsel, Bool.false_eq_true, if_false, hm]
  rw [afterMutation_selectedValues]

theorem reset_selectedValues (st : State) :
    (reset st).selectedValues = [] := by
  unfold reset
  dsimp only
  split <;> rfl

theorem setValue_singleton_selectedValues_len (st : State) (v? : Option String) :
    (setValue st [v?]).selectedValues.length ≤ 1 := by
  simp only [setValue, afterMutation_selectedValues]
  show ((setValueStep { st with selectedValues := [], items := clearItems st.items } v?).selectedValues).length ≤ 1
  cases v? with
  | none =>
    show ([] : List String).length ≤ 1
    simp
  | some v =>
    unfold setValueStep
    dsimp only
    split
    · show (setAdd [] v).length ≤ 1
      simp [setAdd]
    · show ([] : List String).length ≤ 1
      simp

theorem hasItem_markFirstItem :
    ∀ (items : List Item) (v : String) (b : Bool) (w : String),
      hasItem (markFirstItem items v b) w = hasItem items w := by
  intro items v b
  induction items with
  | nil => intro w; rfl
  | cons it rest ih =>
    intro w
    unfold markFirstItem
    split
    · simp [hasItem]
    · simp only [hasItem, List.any_cons] at ih ⊢
      rw [ih]

theorem hasItem_clearItems (items : List Item) (w : String) :
    hasItem (clearItems items) w = hasItem items w := by
  induction items with
  | nil => rfl
  | cons it rest ih =>
    unfold hasItem clearItems at ih ⊢
    simp only [List.map_cons, List.any_cons]
    dsimp only
    rw [ih]

theorem mem_setAdd (s : List String) (v x : String) :
    x ∈ setAdd s v ↔ x ∈ s ∨ x = v := by
  unfold setAdd
  split
  · rename_i h
    constructor
    · exact Or.inl
    · rintro (h1 | rfl)
      · exact h1
      · exact h
  · simp [List.mem_append]

theorem setValueFold_mem :
    ∀ (vs : List String) (st : State),
      (∀ v ∈ vs, hasItem st.items v = true) →
      ∀ x, (x ∈ ((vs.map some).foldl setValueStep st).selectedValues ↔
        x ∈ st.selectedValues ∨ x ∈ vs) := by
  intro vs
  induction vs with
  | nil => intro st _ x; simp
  | cons v rest ih =>
    intro st hall x
    have hv : hasItem st.items v = true := hall v (List.mem_cons_self v rest)
    have hstep : setValueStep st (some v) =
        { st with selectedValues := setAdd st.selectedValues v,
                  items := markFirstItem st.items v true } := by
      unfold setValueStep
      dsimp only
      rw [if_pos hv]
    have hall2 : ∀ u ∈ rest, hasItem (markFirstItem st.items v true) u = true := by
      intro u hu
      rw [hasItem_markFirstItem]
      exact hall u (List.mem_cons_of_mem v hu)
    show x ∈ ((rest.map some).foldl setValueStep (setValueStep st (some v))).selectedValues ↔ _
    rw [hstep, ih _ hall2 x]
    dsimp only
    rw [mem_setAdd, List.mem_cons]
    tauto

/-- C3 counterexample: on the single-select control, `setValue` with two
matching values leaves both in `selectedValues`, breaking the claimed
single-mode invariant `|selectedValues| ≤ 1`. -/
theorem single_mode_setValue_breaks_invariant :
    singleState.multiple = false ∧
    (setValue singleState [some "a", some "b"]).selectedValues = ["a", "b"] ∧
    ¬ ((setValue singleState [some "a", some "b"]).selectedValues.length ≤ 1) := by
  refine ⟨rfl, by decide, by decide⟩

/-- C3 (amended): in single-selection mode the invariant
`|selectedValues| ≤ 1` is preserved by `selectItem` (which replaces the
whole set), by `reset` (which empties it), and by `setValue` applied to a
single value — but not by `setValue` applied to an array of more than one
matching value, because `setValue` marks every supplied match without
consulting the mode. -/
theorem single_mode_invariant_outside_setValue (st : State)
    (hm : st.multiple = false) (hinv : st.selectedValues.length ≤ 1) :
    (∀ v : String, (selectItem st v).selectedValues.length ≤ 1) ∧
    (reset st).selectedValues = [] ∧
    (∀ v? : Option String, (setValue st [v?]).selectedValues.length ≤ 1) := by
  refine ⟨?_, reset_selectedValues st, fun v? => setValue_singleton_selectedValues_len st v?⟩
  intro v
  by_cases hsel : st.isSelecting = true
  · rw [selectItem_guarded st v hsel]
    exact hinv
  · have hsel2 : st.isSelecting = false := by
      simpa using hsel
    rw [selectItem_single_selectedValues st v hsel2 hm]
    simp

/-- C3 witness: the preservation theorem applied to the fresh single-select
control and option `a`. -/
theorem single_mode_invariant_outside_setValue_witness :
    singleState.multiple = false ∧ singleState.selectedValues.length ≤ 1 ∧
    (selectItem singleState "a").selectedValues.length ≤ 1 :=
  ⟨rfl, by decide,
   (single_mode_invariant_outside_setValue singleState rfl (by decide)).1 "a"⟩

/-- C6 counterexample: `reset()` on the already-empty control (hidden field
already `""`) still dispatches a `change` event on the hidden input,
refuting that a field-level notification fires only when the serialized
value actually differs. -/
theorem reset_on_empty_still_dispatches_field_change :
    singleState.hiddenValue = "" ∧ singleState.selectedValues = [] ∧
    hiddenCount (reset singleState).events = 1 ∧
    ¬ hiddenCount (reset singleState).events = 0 := by
  refine ⟨rfl, rfl, by decide, by decide⟩

/-- C6 (amended): `updateHiddenInput` — and with it `selectItem` and
`setValue`, which rewrite the field only through it — dispatches the
field-level `change` event exactly when the serialized joined value
differs from the field's prior value; `reset`, however, clears the field
and dispatches the `change` event unconditionally, even when the field was
already empty. -/
theorem hidden_field_change_discipline :
    (∀ st : State, (updateHiddenInput st).events = st.events ++
        (if st.hiddenValue ≠ String.intercalate "," st.selectedValues
         then [Event.hiddenChange] else [])) ∧
    (∀ (st : State) (v : String), st.isSelecting = false →
        hiddenCount (selectItem st v).events = hiddenCount st.events +
          (if st.hiddenValue ≠ String.intercalate "," ((selectItem st v).selectedValues)
           then 1 else 0)) ∧
    (∀ (st : State) (l : List (Option String)),
        hiddenCount (setValue st l).events = hiddenCount st.events +
          (if st.hiddenValue ≠ String.intercalate "," ((setValue st l).selectedValues)
           then 1 else 0)) ∧
    (∀ st : State, hiddenCount (reset st).events = hiddenCount st.events + 1) :=
  ⟨fun st => updateHiddenInput_events st,
   fun st v h => hiddenCount_selectItem st v h,
   fun st l => hiddenCount_setValue st l,
   fun st => hiddenCount_reset st⟩

/-- C6 witness: selecting option `a` on the fresh control rewrites the
field from `""` to `"a"` and dispatches exactly one field-level `change`. -/
theorem hidden_field_change_discipline_witness :
    singleState.isSelecting = false ∧
    hiddenCount (selectItem singleState "a").events
      = hiddenCount singleState.events +
        (if singleState.hiddenValue ≠
            String.intercalate "," ((selectItem singleState "a").selectedValues)
         then 1 else 0) :=
  ⟨rfl, hidden_field_change_discipline.2.1 singleState "a" rfl⟩

/-- C8: for values that all match existing options, `setValue` then
`getValue` round-trips — as set equality on `selectedValues` in multi
mode, and as the exact single value in single mode. -/
theorem setValue_getValue_roundtrip :
    (∀ (st : State) (vs : List String),
        st.multiple = true →
        (∀ v ∈ vs, hasItem st.items v = true) →
        getValue (setValue st (vs.map some)) =
          Value.multi ((setValue st (vs.map some)).selectedValues) ∧
        (∀ x, x ∈ (setValue st (vs.map some)).selectedValues ↔ x ∈ vs)) ∧
    (∀ (st : State) (v : String),
        st.multiple = false → hasItem st.items v = true →
        getValue (setValue st [some v]) = Value.single (some v)) := by
  constructor
  · intro st vs hm hall
    have hmul : (setValue st (vs.map some)).multiple = true := by
      simp only [setValue, afterMutation_multiple, setValueFold_multiple]
      exact hm
    constructor
    · unfold getValue
      rw [if_pos hmul]
    · intro x
      have h0 : ∀ v ∈ vs, hasItem (clearItems st.items) v = true := by
        intro v hv
        rw [hasItem_clearItems]
        exact hall v hv
      simp only [setValue, afterMutation_selectedValues]
      rw [setValueFold_mem vs _ h0 x]
      dsimp only
      simp
  · intro st v hm hv
    have hv0 : hasItem (clearItems st.items) v = true := by
      rw [hasItem_clearItems]
      exact hv
    have hfold : ([some v].foldl setValueStep
        { st with selectedValues := [], items := clearItems st.items }).selectedValues = [v] := by
      show (setValueStep
          { st with selectedValues := [], items := clearItems st.items }
          (some v)).selectedValues = [v]
      unfold setValueStep
      dsimp only
      rw [if_pos hv0]
      show setAdd [] v = [v]
      rfl
    have hmul : (setValue st [some v]).multiple = false := by
      simp only [setValue, afterMutation_multiple, setValueFold_multiple]
      exact hm
    have hsv : (setValue st [some v]).selectedValues = [v] := by
      simp only [setValue, afterMutation_selectedValues]
      exact hfold
    unfold getValue
    rw [if_neg (by simp [hmul]), hsv]
    rfl

/-- C8 witness: the round trip at the concrete multi-select control with
`["a","c"]` and the single-select control with `"b"`. -/
theorem setValue_getValue_roundtrip_witness :
    multiState.multiple = true ∧
    ("a" ∈ (setValue multiState (["a", "c"].map some)).selectedValues ↔ "a" ∈ ["a", "c"]) ∧
    getValue (setValue singleState [some "b"]) = Value.single (some "b") :=
  ⟨rfl,
   (setValue_getValue_roundtrip.1 multiState ["a", "c"] rfl (by decide)).2 "a",
   setValue_getValue_roundtrip.2 singleState "b" rfl (by decide)⟩

end TemplUI.SB
